import Mathlib

/-!
Shallow embedding of the Personal-Finance-App transaction engine
(`app/models/transaction.py` and `app/services/transaction_service.py`).
Decimal amounts are modelled as exact rationals, Python dicts with a
default value as total functions with that default, and the float
conversion at the API boundary as the identity on the exact values.
-/

namespace Finance

/-- Calendar date as stored in a Python `datetime` (day precision). -/
structure Date where
  year : Nat
  month : Nat
  day : Nat
deriving DecidableEq, Repr

/-- The `Transaction` dataclass of `app/models/transaction.py`. -/
structure Transaction where
  date : Date
  description : String
  debit_amount : Option ℚ
  credit_amount : Option ℚ
deriving DecidableEq, Repr

/-- Python truthiness of an optional Decimal: `None` and a zero value are falsy. -/
def truthy : Option ℚ → Bool
  | none => false
  | some x => x != 0

/-- The numeric value carried by an optional Decimal (0 when absent). -/
def optVal (o : Option ℚ) : ℚ := o.getD 0

/-- `Transaction.amount`: the credit amount if truthy, else the negated
debit amount if truthy, else zero. -/
def Transaction.amount (t : Transaction) : ℚ :=
  if truthy t.credit_amount then optVal t.credit_amount
  else if truthy t.debit_amount then -(optVal t.debit_amount)
  else 0

/-- Zero-padded two-digit rendering, as strftime `%m` and `%d` produce. -/
def pad2 (n : Nat) : String := if n < 10 then "0" ++ toString n else toString n

/-- strftime `%Y` of a date. -/
def yearString (d : Date) : String := toString d.year

/-- strftime `%m` of a date. -/
def monthString (d : Date) : String := pad2 d.month

/-- strftime `%Y-%m` of a date (the monthly grouping key). -/
def monthKey (d : Date) : String := yearString d ++ "-" ++ monthString d

/-- strftime `%Y-%m-%d` of a date. -/
def dateString (d : Date) : String := monthKey d ++ "-" ++ pad2 d.day

/-- Contiguous-substring test on character lists (Python `in` on strings). -/
def containsList (needle : List Char) : List Char → Bool
  | [] => needle.isEmpty
  | c :: rest => List.isPrefixOf needle (c :: rest) || containsList needle rest

/-- Python `str.upper()`, applied characterwise. -/
def upper (s : String) : List Char := s.data.map Char.toUpper

/-- Case-insensitive keyword occurrence: `keyword.upper() in description.upper()`. -/
def kwIn (kw desc : String) : Bool := containsList (upper kw) (upper desc)

/-- `TransactionService.INVESTMENT_KEYWORDS`. -/
def INVESTMENT_KEYWORDS : List String :=
  ["WEALTHSIMPLE", "QUESTRADE", "INVESTMENT", "EDWARD JONES",
   "TFE / EFT QUESTRADE", "SHAREOWNER"]

/-- The Dining keyword containing an apostrophe (character 39). -/
def carlsJr : String := "CARL" ++ (Char.ofNat 39).toString ++ "S JR"

/-- `TransactionService.CATEGORY_KEYWORDS`, in declaration order. -/
def CATEGORY_KEYWORDS : List (String × List String) :=
  [("Groceries",
    ["SUPERMARKET", "T&T", "LUCKY", "MARKET", "COSTCO",
     "WALMART", "HEN LONG", "PRODUCE", "FOOD", "GROCERY"]),
   ("Dining",
    ["RESTAURANT", "CAFE", "PHO", "DINING", "UBER*EATS",
     "UBER * EATS", "SUSHI", "BAR", "PUB", "THAI",
     "BUBBLE", "TEA", "YIFANG", "BANH", "MILK & SUGAR",
     "DUFFIN", "DONUT", carlsJr]),
   ("Transportation",
    ["UBER", "COMPASS", "TRANSIT", "PARKING", "ICBC",
     "ATM WITHDRAWAL", "GAS", "SHELL", "CANADIAN TIRE"]),
   ("Shopping",
    ["WALMART", "COSTCO", "RETAIL", "AMZN", "AMAZON",
     "ALIEXPRESS", "SPORT CHEK", "STORE", "PURCHASE"]),
   ("Bills & Utilities",
    ["BILL", "SERVICE CHARGE", "ROGERS", "INSURANCE",
     "MASTERCARD", "NETWORK FEE", "PHONE", "INTERNET",
     "UTILITIES", "HYDRO", "CARD PRODUCTS"]),
   ("Entertainment",
    ["MOVIE", "CINEMA", "THEATRE", "GAME", "SPORT",
     "BADMINTON", "ENTERTAINMENT", "ART", "GALLERY"]),
   ("Healthcare",
    ["MEDICAL", "DENTAL", "PHARMACY", "HEALTH", "CLINIC",
     "PHARMASAVE", "DRUG", "ASSURE HEALTH"]),
   ("Education",
    ["TUITION", "SCHOOL", "COLLEGE", "UNIVERSITY", "BCIT",
     "COURSE", "EXAM", "IELTS"]),
   ("Investments", INVESTMENT_KEYWORDS),
   ("Income",
    ["DEPOSIT", "PAYROLL", "REFUND", "CANADA LIFE",
     "AMAZON DEVELOPMENT", "FULFILLMENT", "TAX REFUND",
     "CREDIT MEMO", "AE/EI"]),
   ("Transfers", ["E-TRANSFER", "TRANSFER", "IBB"])]

/-- `TransactionService.is_investment_transaction`. -/
def is_investment_transaction (description : String) : Bool :=
  INVESTMENT_KEYWORDS.any (fun kw => kwIn kw description)

/-- The category table used for classification: the source copies
`CATEGORY_KEYWORDS` and pops the Investments entry when
`exclude_investments` is set, keeping the remaining order. -/
def categoryTable (exclude_investments : Bool) : List (String × List String) :=
  if exclude_investments then CATEGORY_KEYWORDS.filter (fun p => p.1 != "Investments")
  else CATEGORY_KEYWORDS

/-- Whether any keyword of a category entry occurs in the description. -/
def catMatches (description : String) (p : String × List String) : Bool :=
  p.2.any (fun kw => kwIn kw description)

/-- First-match-wins classification over the ordered category table
(the inner loop of `analyze_spending_categories`). -/
def classify (exclude_investments : Bool) (description : String) : Option String :=
  ((categoryTable exclude_investments).find? (catMatches description)).map Prod.fst

/-- Days in a month, as validated by the Python `datetime` constructor. -/
def daysInMonth (y m : Nat) : Nat :=
  if m = 2 then (if (y % 4 = 0 ∧ y % 100 ≠ 0) ∨ y % 400 = 0 then 29 else 28)
  else if m = 4 ∨ m = 6 ∨ m = 9 ∨ m = 11 then 30
  else 31

/-- Value of a digit list read in base 10. -/
def digitsVal (l : List Char) : Nat := l.foldl (fun n c => 10 * n + (c.toNat - 48)) 0

/-- Splitting a character list at each dash, as Python `split` on a
single separator (empty components are kept). -/
def splitOnDash : List Char → List (List Char)
  | [] => [[]]
  | c :: rest =>
    let r := splitOnDash rest
    if c = '-' then [] :: r
    else
      match r with
      | [] => [[c]]
      | h :: t => (c :: h) :: t

/-- The numeric value of a non-empty all-digit component, `none` otherwise. -/
def digitComponent (l : List Char) : Option Nat :=
  if l ≠ [] ∧ l.all Char.isDigit then some (digitsVal l) else none

/-- `datetime.strptime(s, %Y-%m-%d)`: a four-digit year, month and day
components of one or two digits, validated as a real calendar date. -/
def parseDate (s : String) : Option Date :=
  match splitOnDash s.data with
  | [ys, ms, ds] =>
    match digitComponent ys, digitComponent ms, digitComponent ds with
    | some y, some m, some d =>
      if ys.length = 4 ∧ (ms.length = 1 ∨ ms.length = 2)
          ∧ (ds.length = 1 ∨ ds.length = 2)
          ∧ 1 ≤ y ∧ 1 ≤ m ∧ m ≤ 12 ∧ 1 ≤ d ∧ d ≤ daysInMonth y m
      then some ⟨y, m, d⟩ else none
    | _, _, _ => none
  | _ => none

/-- Unsigned part of a Decimal literal: digits with an optional fractional
part, at least one digit in total (the fixed-point forms bank exports use). -/
def parseUnsignedDec (l : List Char) : Option ℚ :=
  let ip := l.takeWhile Char.isDigit
  let rest := l.dropWhile Char.isDigit
  match rest with
  | [] => if ip.isEmpty then none else some ((digitsVal ip : ℚ))
  | c :: frac =>
    if c == '.' && frac.all Char.isDigit && !(ip.isEmpty && frac.isEmpty)
    then some ((digitsVal ip : ℚ) + (digitsVal frac : ℚ) / ((10 : ℚ) ^ frac.length))
    else none

/-- Python `Decimal(s)` on a stripped non-empty string: an optional sign
followed by a fixed-point digit string. -/
def parseDecimal (s : String) : Option ℚ :=
  match s.data with
  | [] => none
  | c :: rest =>
    if c == '-' then (parseUnsignedDec rest).map (fun q => -q)
    else if c == '+' then parseUnsignedDec rest
    else parseUnsignedDec (c :: rest)

/-- Python `str.strip()`: whitespace removed from both ends. -/
def pyStrip (s : String) : String :=
  String.mk (((s.data.dropWhile Char.isWhitespace).reverse.dropWhile
    Char.isWhitespace).reverse)

/-- One amount field: stripped, empty means absent, otherwise a Decimal. -/
def parseAmountField (s : String) : Option (Option ℚ) :=
  let t := pyStrip s
  if t.data.isEmpty then some none else (parseDecimal t).map some

/-- One already-split CSV record `date,description,debit,credit`. -/
structure CsvRow where
  date : String
  description : String
  debit : String
  credit : String
deriving DecidableEq, Repr

/-- Parsing of one row inside `read_cibc_transactions`; a malformed date
or amount raises, modelled as `Except.error` (the ParseError of the spec). -/
def parseRow (r : CsvRow) : Except String Transaction :=
  match parseDate r.date with
  | none => .error "malformed date"
  | some d =>
    match parseAmountField r.debit with
    | none => .error "malformed debit amount"
    | some da =>
      match parseAmountField r.credit with
      | none => .error "malformed credit amount"
      | some ca => .ok (Transaction.mk d r.description da ca)

/-- `TransactionService.read_cibc_transactions`: the loop appends one
transaction per row, and an exception aborts the whole parse. -/
def read_cibc_transactions : List CsvRow → Except String (List Transaction)
  | [] => .ok []
  | r :: rs =>
    match parseRow r with
    | .error e => .error e
    | .ok t =>
      match read_cibc_transactions rs with
      | .error e => .error e
      | .ok ts => .ok (t :: ts)

/-- A row whose date field and both amount fields all parse. -/
def rowWellFormed (r : CsvRow) : Bool :=
  (parseDate r.date).isSome && (parseAmountField r.debit).isSome
    && (parseAmountField r.credit).isSome

deriving instance DecidableEq for Except

/-- `TransactionService.filter_transactions_by_date`. -/
def filter_transactions_by_date (txns : List Transaction)
    (year month : Option String) : List Transaction :=
  match year with
  | none => txns
  | some y =>
    let filtered := txns.filter (fun t => yearString t.date == y)
    match month with
    | none => filtered
    | some m => filtered.filter (fun t => monthString t.date == m)

/-- The investment pre-filter shared by the aggregators. -/
def invFilter (exclude_investments : Bool) (txns : List Transaction) :
    List Transaction :=
  if exclude_investments then
    txns.filter (fun t => !is_investment_transaction t.description)
  else txns

/-- `TransactionService.get_balance`. -/
def get_balance (txns : List Transaction) (year month : Option String)
    (exclude_investments : Bool) : ℚ :=
  ((invFilter exclude_investments
      (filter_transactions_by_date txns year month)).map Transaction.amount).sum

/-- `TransactionService.get_total_credits`: sums the credit amounts of the
surviving transactions whose credit field is truthy. -/
def get_total_credits (txns : List Transaction) (year month : Option String)
    (exclude_investments : Bool) : ℚ :=
  (((invFilter exclude_investments
      (filter_transactions_by_date txns year month)).filter
        (fun t => truthy t.credit_amount)).map
          (fun t => optVal t.credit_amount)).sum

/-- `TransactionService.get_total_debits`: sums the debit amounts of the
surviving transactions whose debit field is truthy. -/
def get_total_debits (txns : List Transaction) (year month : Option String)
    (exclude_investments : Bool) : ℚ :=
  (((invFilter exclude_investments
      (filter_transactions_by_date txns year month)).filter
        (fun t => truthy t.debit_amount)).map
          (fun t => optVal t.debit_amount)).sum

/-- Pointwise update of a dict modelled as a total function. -/
def update (f : String → ℚ) (k : String) (v : ℚ) : String → ℚ :=
  fun x => if x = k then v else f x

/-- The magnitude selected by `analyze_spending_categories`:
the debit amount if truthy, else the credit amount if truthy, else 0. -/
def selAmount (t : Transaction) : ℚ :=
  if truthy t.debit_amount then optVal t.debit_amount
  else if truthy t.credit_amount then optVal t.credit_amount
  else 0

/-- One loop iteration of `analyze_spending_categories`. -/
def categorize (exclude_investments : Bool) (acc : String → ℚ)
    (t : Transaction) : String → ℚ :=
  let amount := selAmount t
  if amount = 0 then acc
  else
    match classify exclude_investments t.description with
    | some c => update acc c (acc c + amount)
    | none =>
      if exclude_investments && is_investment_transaction t.description then acc
      else update acc "Other" (acc "Other" + amount)

/-- `TransactionService.analyze_spending_categories`, as the total map
from category name to accumulated amount (absent keys map to 0). -/
def analyze_spending_categories (txns : List Transaction)
    (year month : Option String) (exclude_investments : Bool) : String → ℚ :=
  (filter_transactions_by_date txns year month).foldl
    (categorize exclude_investments) (fun _ => 0)

/-- One loop iteration of `analyze_monthly_spending`: the credit and then
the debit amount are added to the month bucket when truthy. -/
def addMonthly (acc : String → ℚ × ℚ) (t : Transaction) : String → ℚ × ℚ :=
  let k := monthKey t.date
  let acc1 := if truthy t.credit_amount then
      (fun x => if x = k then ((acc k).1 + optVal t.credit_amount, (acc k).2)
       else acc x)
    else acc
  if truthy t.debit_amount then
    (fun x => if x = k then ((acc1 k).1, (acc1 k).2 + optVal t.debit_amount)
     else acc1 x)
  else acc1

/-- `TransactionService.analyze_monthly_spending`, as the total map from
`YYYY-MM` key to the pair (credits, debits). -/
def analyze_monthly_spending (txns : List Transaction) (year : Option String)
    (exclude_investments : Bool) : String → ℚ × ℚ :=
  (invFilter exclude_investments
    (filter_transactions_by_date txns year none)).foldl addMonthly (fun _ => (0, 0))

/-- One serialized transaction of the `all_transactions` echo; a falsy
(absent or zero) amount field is echoed as `None`. -/
structure TxRecord where
  date : String
  description : String
  debit_amount : Option ℚ
  credit_amount : Option ℚ
deriving DecidableEq, Repr

/-- The record built for one transaction in `get_spending_summary`. -/
def txRecord (t : Transaction) : TxRecord :=
  { date := dateString t.date
    description := t.description
    debit_amount := if truthy t.debit_amount then t.debit_amount else none
    credit_amount := if truthy t.credit_amount then t.credit_amount else none }

/-- The response record of `get_spending_summary`. -/
structure SpendingSummary where
  total_balance : ℚ
  total_income : ℚ
  total_expenses : ℚ
  monthly_patterns : String → ℚ × ℚ
  category_breakdown : String → ℚ
  all_transactions : List TxRecord

/-- `TransactionService.get_spending_summary`: monthly patterns over the
full list, the other aggregates over the period-filtered subset, and an
echo of every original transaction. -/
def get_spending_summary (txns : List Transaction)
    (year month : Option String) (exclude_investments : Bool) :
    SpendingSummary :=
  let monthly := analyze_monthly_spending txns none exclude_investments
  let filtered := filter_transactions_by_date txns year month
  { total_balance := get_balance filtered none none exclude_investments
    total_income := get_total_credits filtered none none exclude_investments
    total_expenses := get_total_debits filtered none none exclude_investments
    monthly_patterns := monthly
    category_breakdown :=
      analyze_spending_categories filtered none none exclude_investments
    all_transactions := txns.map txRecord }

/-- The two-row concrete scenario given in the spec. -/
def sampleRows : List CsvRow :=
  [CsvRow.mk "2024-01-01" "Branch Transaction SERVICE CHARGE DISCOUNT" "" "29.95",
   CsvRow.mk "2024-01-02" "COSTCO WHOLESALE" "45.10" ""]

/-- The magnitude the text of claim C2 selects verbatim: the debit amount
if present, otherwise the credit amount if present, otherwise 0 (presence
alone, ignoring zero values). -/
def claimSelAmount (t : Transaction) : ℚ :=
  match t.debit_amount with
  | some d => d
  | none =>
    match t.credit_amount with
    | some c => c
    | none => 0

/-- The magnitude after the amendment: the debit amount if present and
non-zero, otherwise the credit amount if present, otherwise 0. -/
def specSelAmount (t : Transaction) : ℚ :=
  match t.debit_amount with
  | some d =>
    if d = 0 then
      match t.credit_amount with
      | some c => c
      | none => 0
    else d
  | none =>
    match t.credit_amount with
    | some c => c
    | none => 0

/-- The category bucket a transaction lands in, for a given magnitude
selection: none when the magnitude is zero or when the transaction is an
unmatched investment with investments excluded; otherwise the first
matching category, with unmatched transactions going to Other. -/
def bucketWith (sel : Transaction → ℚ) (exclude_investments : Bool)
    (t : Transaction) : Option String :=
  if sel t = 0 then none
  else
    match classify exclude_investments t.description with
    | some c => some c
    | none =>
      if exclude_investments && is_investment_transaction t.description then none
      else some "Other"

/-- Per-category total as described by the amended claim: the sum of the
selected magnitudes of the filtered transactions falling in the category. -/
def specCategoryTotal (txns : List Transaction) (year month : Option String)
    (exclude_investments : Bool) (c : String) : ℚ :=
  ((filter_transactions_by_date txns year month).map
    (fun t => if bucketWith specSelAmount exclude_investments t = some c
      then specSelAmount t else 0)).sum

/-- Per-category total as described by claim C2 verbatim (presence alone
selects the debit amount). -/
def claimCategoryTotal (txns : List Transaction) (year month : Option String)
    (exclude_investments : Bool) (c : String) : ℚ :=
  ((filter_transactions_by_date txns year month).map
    (fun t => if bucketWith claimSelAmount exclude_investments t = some c
      then claimSelAmount t else 0)).sum

/-- All keys the category dict can hold: the table names and Other. -/
def resultNames (exclude_investments : Bool) : List String :=
  (categoryTable exclude_investments).map Prod.fst ++ ["Other"]

/-- The contribution of one transaction to the dict total: its selected
magnitude when it is bucketed, 0 when it is skipped or dropped. -/
def keptAmountWith (sel : Transaction → ℚ) (exclude_investments : Bool)
    (t : Transaction) : ℚ :=
  match bucketWith sel exclude_investments t with
  | some _ => sel t
  | none => 0

/-- Claim C5: the derived amount equals `credit_amount` when present and
non-zero, otherwise the negation of `debit_amount` when present,
otherwise zero; when both fields are populated and the credit is
non-zero, the credit silently wins. -/
theorem claim_C5 (t : Transaction) :
    (∀ c : ℚ, t.credit_amount = some c → c ≠ 0 → t.amount = c)
    ∧ (∀ d : ℚ, (t.credit_amount = none ∨ t.credit_amount = some 0) →
        t.debit_amount = some d → t.amount = -d)
    ∧ ((t.credit_amount = none ∨ t.credit_amount = some 0) →
        t.debit_amount = none → t.amount = 0)
    ∧ (∀ d c : ℚ, t.debit_amount = some d → t.credit_amount = some c →
        c ≠ 0 → t.amount = c) := by
  refine ⟨?_, ?_, ?_, ?_⟩
  · intro c hc hne
    simp [Transaction.amount, truthy, hc, optVal, hne]
  · intro d hcr hd
    rcases eq_or_ne d 0 with rfl | hne
    · rcases hcr with h | h <;> simp [Transaction.amount, truthy, h, hd, optVal]
    · rcases hcr with h | h <;> simp [Transaction.amount, truthy, h, hd, optVal, hne]
  · intro hcr hd
    rcases hcr with h | h <;> simp [Transaction.amount, truthy, h, hd]
  · intro d c _ hc hne
    simp [Transaction.amount, truthy, hc, optVal, hne]

/-- Witness for C5 at the concrete transactions named in the claim. -/
theorem claim_C5_witness :
    (Transaction.mk ⟨2024, 1, 1⟩ "A" none (some 100)).amount = 100
    ∧ (Transaction.mk ⟨2024, 1, 2⟩ "B" (some 50) none).amount = -50
    ∧ (Transaction.mk ⟨2024, 1, 3⟩ "C" none none).amount = 0 :=
  ⟨(claim_C5 _).1 100 rfl (by norm_num),
   (claim_C5 _).2.1 50 (Or.inl rfl) rfl,
   (claim_C5 _).2.2.1 (Or.inl rfl) rfl⟩

/-- Claim C6: the summary computes monthly patterns over the full
transaction list (only investment-filtered, independent of the requested
period), the scalar aggregates and the category breakdown over the
period-filtered subset, and echoes every original transaction. -/
theorem claim_C6 (txns : List Transaction) (y m y2 m2 : Option String)
    (e : Bool) :
    (get_spending_summary txns y m e).monthly_patterns
        = analyze_monthly_spending txns none e
    ∧ (get_spending_summary txns y m e).monthly_patterns
        = (get_spending_summary txns y2 m2 e).monthly_patterns
    ∧ (get_spending_summary txns y m e).total_balance = get_balance txns y m e
    ∧ (get_spending_summary txns y m e).total_income
        = get_total_credits txns y m e
    ∧ (get_spending_summary txns y m e).total_expenses
        = get_total_debits txns y m e
    ∧ (∀ c, (get_spending_summary txns y m e).category_breakdown c
        = analyze_spending_categories txns y m e c)
    ∧ (get_spending_summary txns y m e).all_transactions = txns.map txRecord :=
  ⟨rfl, rfl, rfl, rfl, rfl, fun _ => rfl, rfl⟩

/-- Claim C9: `all_transactions` holds exactly one record per input
transaction, in input order and independent of the period parameters,
and a present-but-zero amount field is echoed as absent. -/
theorem claim_C9 (txns : List Transaction) (y m y2 m2 : Option String)
    (e : Bool) :
    ((get_spending_summary txns y m e).all_transactions.length = txns.length)
    ∧ ((get_spending_summary txns y m e).all_transactions
        = (get_spending_summary txns y2 m2 e).all_transactions)
    ∧ ((get_spending_summary txns y m e).all_transactions = txns.map txRecord)
    ∧ (∀ t : Transaction, t.debit_amount = some 0 →
        (txRecord t).debit_amount = none)
    ∧ (∀ t : Transaction, t.credit_amount = some 0 →
        (txRecord t).credit_amount = none)
    ∧ (∀ (t : Transaction) (d : ℚ), t.debit_amount = some d → d ≠ 0 →
        (txRecord t).debit_amount = some d)
    ∧ (∀ (t : Transaction) (c : ℚ), t.credit_amount = some c → c ≠ 0 →
        (txRecord t).credit_amount = some c) := by
  refine ⟨by simp [get_spending_summary], rfl, rfl, ?_, ?_, ?_, ?_⟩
  · intro t h; simp [txRecord, truthy, h]
  · intro t h; simp [txRecord, truthy, h]
  · intro t d h hne; simp [txRecord, truthy, h, hne]
  · intro t c h hne; simp [txRecord, truthy, h, hne]

/-- Witness for C9: a present-but-zero debit is echoed as none, while a
non-zero one is echoed unchanged. -/
theorem claim_C9_witness :
    (txRecord (Transaction.mk ⟨2024, 3, 3⟩ "W" (some 0) none)).debit_amount = none
    ∧ (txRecord (Transaction.mk ⟨2024, 3, 4⟩ "V" (some 9) none)).debit_amount
        = some 9 :=
  ⟨(claim_C9 [] none none none none true).2.2.2.1 _ rfl,
   (claim_C9 [] none none none none true).2.2.2.2.2.1 _ 9 rfl (by norm_num)⟩

/-- A month value no greater than 12 never formats as the string 13. -/
theorem pad2_ne_13 (n : Nat) (h : n ≤ 12) : pad2 n ≠ "13" := by
  interval_cases n <;> decide

/-- Claim C7: filtering with no year is the identity (month ignored);
with a year it keeps exactly the transactions whose formatted year equals
the given string; with year and month it additionally compares the
two-digit month string; and for dates with a valid month, month 13
matches nothing instead of failing. -/
theorem claim_C7 (txns : List Transaction) :
    (∀ m, filter_transactions_by_date txns none m = txns)
    ∧ (∀ y, filter_transactions_by_date txns (some y) none
        = txns.filter (fun t => yearString t.date == y))
    ∧ (∀ y m, filter_transactions_by_date txns (some y) (some m)
        = txns.filter
            (fun t => yearString t.date == y && monthString t.date == m))
    ∧ ((∀ t ∈ txns, t.date.month ≤ 12) →
        ∀ y, filter_transactions_by_date txns (some y) (some "13") = []) := by
  refine ⟨fun _ => rfl, fun _ => rfl, ?_, ?_⟩
  · intro y m
    simp only [filter_transactions_by_date, List.filter_filter]
    apply List.filter_congr
    intro x _
    cases yearString x.date == y <;> cases monthString x.date == m <;> rfl
  · intro h y
    simp only [filter_transactions_by_date]
    rw [List.filter_eq_nil_iff]
    intro t ht
    have hm : t.date.month ≤ 12 := h t (List.mem_of_mem_filter ht)
    simp [monthString, pad2_ne_13 _ hm]

/-- Witness for C7: a well-formed date never matches month 13. -/
theorem claim_C7_witness :
    filter_transactions_by_date
      [Transaction.mk ⟨2024, 5, 6⟩ "K" none none] (some "2024") (some "13")
      = [] :=
  (claim_C7 _).2.2.2 (by decide) "2024"

/-- Claim C10: pre-filtering by the date window composes with the
parameterized aggregators, and date filtering is idempotent. -/
theorem claim_C10 (txns : List Transaction) (y m : Option String) (e : Bool) :
    get_balance (filter_transactions_by_date txns y m) none none e
        = get_balance txns y m e
    ∧ get_total_credits (filter_transactions_by_date txns y m) none none e
        = get_total_credits txns y m e
    ∧ get_total_debits (filter_transactions_by_date txns y m) none none e
        = get_total_debits txns y m e
    ∧ (∀ c, analyze_spending_categories (filter_transactions_by_date txns y m)
          none none e c = analyze_spending_categories txns y m e c)
    ∧ filter_transactions_by_date (filter_transactions_by_date txns y m) y m
        = filter_transactions_by_date txns y m := by
  refine ⟨rfl, rfl, rfl, fun _ => rfl, ?_⟩
  cases y with
  | none => rfl
  | some yv =>
    cases m with
    | none =>
      simp only [filter_transactions_by_date, List.filter_filter]
      apply List.filter_congr
      intro x _
      cases yearString x.date == yv <;> rfl
    | some mv =>
      simp only [filter_transactions_by_date, List.filter_filter]
      apply List.filter_congr
      intro x _
      cases yearString x.date == yv <;> cases monthString x.date == mv <;> rfl

/-- Membership is preserved backwards through the date filter. -/
theorem mem_of_mem_dateFilter {t : Transaction} {txns : List Transaction}
    {y m : Option String} (h : t ∈ filter_transactions_by_date txns y m) :
    t ∈ txns := by
  cases y with
  | none => exact h
  | some yv =>
    cases m with
    | none => exact List.mem_of_mem_filter h
    | some mv => exact List.mem_of_mem_filter (List.mem_of_mem_filter h)

/-- Membership is preserved backwards through the investment filter. -/
theorem mem_of_mem_invFilter {t : Transaction} {txns : List Transaction}
    {e : Bool} (h : t ∈ invFilter e txns) : t ∈ txns := by
  cases e with
  | false => exact h
  | true => exact List.mem_of_mem_filter h

/-- Over a list where no transaction has both amounts truthy, the signed
amount total splits into credits minus debits. -/
theorem sum_amount_split (l : List Transaction)
    (h : ∀ t ∈ l,
      ¬(truthy t.credit_amount = true ∧ truthy t.debit_amount = true)) :
    (l.map Transaction.amount).sum
      = ((l.filter (fun t => truthy t.credit_amount)).map
          (fun t => optVal t.credit_amount)).sum
        - ((l.filter (fun t => truthy t.debit_amount)).map
          (fun t => optVal t.debit_amount)).sum := by
  induction l with
  | nil => simp
  | cons t l ih =>
    have ht := h t (List.mem_cons_self t l)
    have ih2 := ih (fun x hx => h x (List.mem_cons_of_mem t hx))
    cases hc : truthy t.credit_amount with
    | true =>
      have hd : truthy t.debit_amount = false := by
        cases hdd : truthy t.debit_amount with
        | false => rfl
        | true => exact absurd ⟨hc, hdd⟩ ht
      simp [List.filter_cons, hc, hd, Transaction.amount, ih2]
      ring
    | false =>
      cases hd : truthy t.debit_amount with
      | true =>
        simp [List.filter_cons, hc, hd, Transaction.amount, ih2]
        ring
      | false =>
        simp [List.filter_cons, hc, hd, Transaction.amount, ih2]

unseal Rat.add Rat.sub Rat.mul Rat.inv in
/-- Counterexample to claim C1 as stated: a transaction carrying both a
non-zero debit and a non-zero credit makes the balance (which takes the
credit only) differ from credits minus debits. -/
theorem claim_C1_counterexample :
    get_balance [Transaction.mk ⟨2024, 1, 1⟩ "X" (some 50) (some 100)]
        none none true
      ≠ get_total_credits
            [Transaction.mk ⟨2024, 1, 1⟩ "X" (some 50) (some 100)]
            none none true
          - get_total_debits
              [Transaction.mk ⟨2024, 1, 1⟩ "X" (some 50) (some 100)]
              none none true := by decide

/-- Claim C1 amended: provided no transaction carries both a non-zero
debit and a non-zero credit, the balance equals total credits minus
total debits, for every identical choice of year, month and
exclude_investments. -/
theorem claim_C1 (txns : List Transaction) (y m : Option String) (e : Bool)
    (h : ∀ t ∈ txns,
      ¬(truthy t.credit_amount = true ∧ truthy t.debit_amount = true)) :
    get_balance txns y m e
      = get_total_credits txns y m e - get_total_debits txns y m e := by
  simp only [get_balance, get_total_credits, get_total_debits]
  exact sum_amount_split _
    (fun t ht => h t (mem_of_mem_dateFilter (mem_of_mem_invFilter ht)))

unseal Rat.add Rat.sub Rat.mul Rat.inv in
/-- Witness for the amended C1 on the concrete scenario of the spec. -/
theorem claim_C1_witness :
    (∀ t ∈ [Transaction.mk ⟨2024, 1, 1⟩
          "Branch Transaction SERVICE CHARGE DISCOUNT" none (some (599/20)),
        Transaction.mk ⟨2024, 1, 2⟩ "COSTCO WHOLESALE" (some (451/10)) none],
        ¬(truthy t.credit_amount = true ∧ truthy t.debit_amount = true))
    ∧ get_balance [Transaction.mk ⟨2024, 1, 1⟩
          "Branch Transaction SERVICE CHARGE DISCOUNT" none (some (599/20)),
        Transaction.mk ⟨2024, 1, 2⟩ "COSTCO WHOLESALE" (some (451/10)) none]
        none none true
      = get_total_credits [Transaction.mk ⟨2024, 1, 1⟩
            "Branch Transaction SERVICE CHARGE DISCOUNT" none (some (599/20)),
          Transaction.mk ⟨2024, 1, 2⟩ "COSTCO WHOLESALE" (some (451/10)) none]
          none none true
        - get_total_debits [Transaction.mk ⟨2024, 1, 1⟩
            "Branch Transaction SERVICE CHARGE DISCOUNT" none (some (599/20)),
          Transaction.mk ⟨2024, 1, 2⟩ "COSTCO WHOLESALE" (some (451/10)) none]
          none none true :=
  ⟨by decide, claim_C1 _ none none true (by decide)⟩

/-- The magnitude the source selects equals the amended selection. -/
theorem selAmount_eq_spec (t : Transaction) : selAmount t = specSelAmount t := by
  rcases t with ⟨d, desc, da, ca⟩
  cases da with
  | none =>
    cases ca with
    | none => rfl
    | some c =>
      rcases eq_or_ne c 0 with rfl | hc
      · simp [selAmount, specSelAmount, truthy]
      · simp [selAmount, specSelAmount, truthy, optVal, hc]
  | some dv =>
    rcases eq_or_ne dv 0 with rfl | hd
    · cases ca with
      | none => simp [selAmount, specSelAmount, truthy]
      | some c =>
        rcases eq_or_ne c 0 with rfl | hc
        · simp [selAmount, specSelAmount, truthy]
        · simp [selAmount, specSelAmount, truthy, optVal, hc]
    · simp [selAmount, specSelAmount, truthy, optVal, hd]

/-- The bucket is the same under the source selection and the amended one. -/
theorem bucketWith_spec_eq (e : Bool) (t : Transaction) :
    bucketWith specSelAmount e t = bucketWith selAmount e t := by
  unfold bucketWith
  rw [selAmount_eq_spec]

/-- One loop iteration adds the selected magnitude to exactly the bucket
of the transaction, leaving every other key unchanged. -/
theorem categorize_apply (e : Bool) (acc : String → ℚ) (t : Transaction)
    (c : String) :
    categorize e acc t c
      = acc c
        + (if bucketWith selAmount e t = some c then selAmount t else 0) := by
  simp only [categorize, bucketWith]
  by_cases h0 : selAmount t = 0
  · simp [h0]
  · simp only [if_neg h0]
    cases hc : classify e t.description with
    | some c0 =>
      simp only [update]
      by_cases hcc : c = c0
      · subst hcc; simp
      · rw [if_neg hcc, if_neg (by simpa using fun hh => hcc hh.symm), add_zero]
    | none =>
      by_cases hi : (e && is_investment_transaction t.description) = true
      · rw [if_pos hi, if_pos hi]; simp
      · rw [if_neg hi, if_neg hi]
        simp only [update]
        by_cases hcc : c = "Other"
        · subst hcc; simp
        · rw [if_neg hcc, if_neg (by simpa using fun hh => hcc hh.symm), add_zero]

/-- The category fold computes, at every key, the accumulator plus the
sum of the magnitudes of the transactions bucketed at that key. -/
theorem foldl_categorize (e : Bool) (l : List Transaction) (acc : String → ℚ)
    (c : String) :
    (l.foldl (categorize e) acc) c
      = acc c + ((l.map (fun t =>
          if bucketWith selAmount e t = some c then selAmount t else 0)).sum) := by
  induction l generalizing acc with
  | nil => simp
  | cons t l ih =>
    simp only [List.foldl_cons, List.map_cons, List.sum_cons]
    rw [ih, categorize_apply]
    ring

unseal Rat.add Rat.sub Rat.mul Rat.inv in
/-- Counterexample to claim C2 as stated: a transaction whose debit is
present but zero and whose credit is non-zero is claimed to be skipped
(selected magnitude 0), but the code falls through to the credit and
adds it to Other. -/
theorem claim_C2_counterexample :
    analyze_spending_categories
        [Transaction.mk ⟨2024, 1, 1⟩ "ZZZ" (some 0) (some 5)] none none true
        "Other"
      ≠ claimCategoryTotal
          [Transaction.mk ⟨2024, 1, 1⟩ "ZZZ" (some 0) (some 5)] none none true
          "Other" := by decide

/-- Claim C2 amended: `analyze_spending_categories` filters by the date
window, selects for each transaction the debit amount if present and
non-zero, otherwise the credit amount if present, otherwise 0, skips
zero magnitudes, adds the magnitude to the first matching category of
the table (Investments removed when excluded), adds non-matching
transactions to Other, except that excluded unmatched investment
transactions are dropped entirely. -/
theorem claim_C2 (txns : List Transaction) (y m : Option String) (e : Bool)
    (c : String) :
    analyze_spending_categories txns y m e c = specCategoryTotal txns y m e c := by
  unfold analyze_spending_categories specCategoryTotal
  rw [foldl_categorize]
  simp only [zero_add]
  congr 1
  apply List.map_congr_left
  intro t _
  rw [bucketWith_spec_eq, selAmount_eq_spec]

/-- The sum of a constant-zero map is zero. -/
theorem sum_map_zero_q {α : Type} (l : List α) :
    (l.map (fun _ => (0 : ℚ))).sum = 0 := by
  induction l with
  | nil => rfl
  | cons a l ih => simp [ih]

/-- Pointwise addition under a mapped sum. -/
theorem sum_map_add_q {α : Type} (l : List α) (f g : α → ℚ) :
    (l.map (fun x => f x + g x)).sum = (l.map f).sum + (l.map g).sum := by
  induction l with
  | nil => simp
  | cons a l ih =>
    simp only [List.map_cons, List.sum_cons]
    rw [ih]
    ring

/-- A one-hot indicator sums to zero over keys that miss its target. -/
theorem sum_indicator_of_not_mem (c0 : String) (a : ℚ) :
    ∀ names : List String, c0 ∉ names →
      (names.map (fun c => if c0 = c then a else 0)).sum = 0 := by
  intro names
  induction names with
  | nil => intro _; rfl
  | cons n ns ih =>
    intro h
    have hne : c0 ≠ n := fun hh => h (by rw [hh]; exact List.mem_cons_self n ns)
    simp only [List.map_cons, List.sum_cons, if_neg hne]
    rw [ih (fun hh => h (List.mem_cons_of_mem n hh)), add_zero]

/-- A one-hot indicator sums to its value over duplicate-free keys that
contain its target. -/
theorem sum_indicator_of_mem (c0 : String) (a : ℚ) :
    ∀ names : List String, names.Nodup → c0 ∈ names →
      (names.map (fun c => if c0 = c then a else 0)).sum = a := by
  intro names
  induction names with
  | nil => intro _ h; cases h
  | cons n ns ih =>
    intro hnd hmem
    rcases List.mem_cons.mp hmem with rfl | hmem2
    · simp only [List.map_cons, List.sum_cons, if_true]
      rw [sum_indicator_of_not_mem _ _ _ (List.nodup_cons.mp hnd).1, add_zero]
    · have hne : c0 ≠ n := by
        rintro rfl
        exact (List.nodup_cons.mp hnd).1 hmem2
      simp only [List.map_cons, List.sum_cons, if_neg hne]
      rw [ih (List.nodup_cons.mp hnd).2 hmem2, zero_add]

/-- Exchanging the order of a double mapped sum. -/
theorem sum_map_swap {α β : Type} (l1 : List α) (l2 : List β) (f : α → β → ℚ) :
    (l1.map (fun a => (l2.map (fun b => f a b)).sum)).sum
      = (l2.map (fun b => (l1.map (fun a => f a b)).sum)).sum := by
  induction l1 with
  | nil =>
    simp only [List.map_nil, List.sum_nil]
    exact (sum_map_zero_q l2).symm
  | cons a l ih =>
    simp only [List.map_cons, List.sum_cons]
    rw [ih, ← sum_map_add_q]

/-- A classification result is a name of the category table. -/
theorem classify_mem (e : Bool) (desc : String) (c : String)
    (h : classify e desc = some c) : c ∈ (categoryTable e).map Prod.fst := by
  unfold classify at h
  cases hf : (categoryTable e).find? (catMatches desc) with
  | none => rw [hf] at h; cases h
  | some p =>
    rw [hf] at h
    have hp := List.mem_of_find?_eq_some hf
    have h2 : p.1 = c := by simpa using h
    exact h2 ▸ List.mem_map_of_mem Prod.fst hp

/-- Every bucketed transaction lands on a result key. -/
theorem bucketWith_mem (e : Bool) (t : Transaction) (c : String)
    (h : bucketWith selAmount e t = some c) : c ∈ resultNames e := by
  unfold bucketWith at h
  by_cases h0 : selAmount t = 0
  · rw [if_pos h0] at h; cases h
  · rw [if_neg h0] at h
    cases hc : classify e t.description with
    | some c0 =>
      rw [hc] at h
      have hcc : c0 = c := by simpa using h
      subst hcc
      exact List.mem_append_left _ (classify_mem e t.description c0 hc)
    | none =>
      rw [hc] at h
      by_cases hi : (e && is_investment_transaction t.description) = true
      · rw [if_pos hi] at h; cases h
      · rw [if_neg hi] at h
        have hcc : "Other" = c := by simpa using h
        subst hcc
        exact List.mem_append_right _ (List.mem_singleton.mpr rfl)

/-- The result keys are pairwise distinct. -/
theorem resultNames_nodup (e : Bool) : (resultNames e).Nodup := by
  cases e <;> decide

/-- Summing the one-hot bucket indicator over all result keys yields the
kept amount of the transaction. -/
theorem sum_bucket_indicator (e : Bool) (t : Transaction) :
    ((resultNames e).map (fun c =>
      if bucketWith selAmount e t = some c then selAmount t else 0)).sum
      = keptAmountWith selAmount e t := by
  unfold keptAmountWith
  cases hb : bucketWith selAmount e t with
  | none =>
    have h1 : ((resultNames e).map (fun c =>
        if (none : Option String) = some c then selAmount t else 0))
        = (resultNames e).map (fun _ => (0 : ℚ)) := by
      apply List.map_congr_left
      intro c _
      simp
    rw [h1, sum_map_zero_q]
  | some c0 =>
    have h1 : ((resultNames e).map (fun c =>
        if some c0 = some c then selAmount t else 0))
        = (resultNames e).map (fun c => if c0 = c then selAmount t else 0) := by
      apply List.map_congr_left
      intro c _
      simp
    rw [h1,
      sum_indicator_of_mem c0 _ _ (resultNames_nodup e) (bucketWith_mem e t c0 hb)]

/-- The kept amount is the same under the source selection and the
amended one. -/
theorem keptAmount_spec_eq (e : Bool) (t : Transaction) :
    keptAmountWith specSelAmount e t = keptAmountWith selAmount e t := by
  unfold keptAmountWith
  rw [bucketWith_spec_eq, selAmount_eq_spec]

unseal Rat.add Rat.sub Rat.mul Rat.inv in
/-- Counterexample to claim C8 as stated: with a present-but-zero debit
and a non-zero credit, the claim counts the transaction as zero-magnitude
(excluded from the total), but the dict receives the credit amount. -/
theorem claim_C8_counterexample :
    ((resultNames true).map (analyze_spending_categories
        [Transaction.mk ⟨2024, 2, 2⟩ "QQQ" (some 0) (some 7)] none none true)).sum
      ≠ ((filter_transactions_by_date
            [Transaction.mk ⟨2024, 2, 2⟩ "QQQ" (some 0) (some 7)] none none).map
          (keptAmountWith claimSelAmount true)).sum := by decide

/-- Claim C8 amended: the values of the category dict (all result keys,
Other included) sum to the total of the selected magnitudes — debit if
present and non-zero, else credit if present, else 0 — of the filtered
transactions that are non-zero and not dropped by the investment
exclusion; keys outside the result set hold nothing. -/
theorem claim_C8 (txns : List Transaction) (y m : Option String) (e : Bool) :
    ((resultNames e).map (analyze_spending_categories txns y m e)).sum
      = ((filter_transactions_by_date txns y m).map
          (keptAmountWith specSelAmount e)).sum
    ∧ (∀ c, c ∉ resultNames e → analyze_spending_categories txns y m e c = 0) := by
  constructor
  · have h1 : ((resultNames e).map (analyze_spending_categories txns y m e))
        = (resultNames e).map (fun c =>
            ((filter_transactions_by_date txns y m).map (fun t =>
              if bucketWith selAmount e t = some c then selAmount t else 0)).sum) := by
      apply List.map_congr_left
      intro c _
      unfold analyze_spending_categories
      rw [foldl_categorize, zero_add]
    rw [h1, sum_map_swap]
    congr 1
    apply List.map_congr_left
    intro t _
    rw [keptAmount_spec_eq]
    exact sum_bucket_indicator e t
  · intro c hc
    unfold analyze_spending_categories
    rw [foldl_categorize, zero_add]
    have h1 : ((filter_transactions_by_date txns y m).map (fun t =>
        if bucketWith selAmount e t = some c then selAmount t else 0))
        = (filter_transactions_by_date txns y m).map (fun _ => 0) := by
      apply List.map_congr_left
      intro t _
      rw [if_neg]
      intro hb
      exact hc (bucketWith_mem e t c hb)
    rw [h1, sum_map_zero_q]

/-- Witness for the amended C8: a key outside the table holds nothing. -/
theorem claim_C8_witness :
    analyze_spending_categories
      [Transaction.mk ⟨2024, 4, 4⟩ "PAYROLL DEPOSIT" none (some 3)] none none
      true "NotACategory" = 0 :=
  (claim_C8 _ none none true).2 "NotACategory" (by decide)

/-- A row parses exactly when it is well formed. -/
theorem parseRow_ok_iff (r : CsvRow) :
    rowWellFormed r = true ↔ ∃ t, parseRow r = .ok t := by
  unfold rowWellFormed parseRow
  cases hd : parseDate r.date with
  | none => simp [hd]
  | some d =>
    cases ha : parseAmountField r.debit with
    | none => simp [hd, ha]
    | some da =>
      cases hb : parseAmountField r.credit with
      | none => simp [hd, ha, hb]
      | some ca => simp [hd, ha, hb]

/-- Claim C3: parsing fails on any row with an unparseable date or
amount field, with no recovery and no skipping; when every row is well
formed it returns exactly one transaction per input row, in file order. -/
theorem claim_C3 (rows : List CsvRow) :
    ((∃ r ∈ rows, rowWellFormed r = false) →
      ∃ msg, read_cibc_transactions rows = .error msg)
    ∧ ((∀ r ∈ rows, rowWellFormed r = true) →
      ∃ ts, read_cibc_transactions rows = .ok ts
        ∧ ts.length = rows.length
        ∧ ∀ (i : Nat) (h1 : i < rows.length) (h2 : i < ts.length),
            parseRow (rows.get ⟨i, h1⟩) = .ok (ts.get ⟨i, h2⟩)) := by
  induction rows with
  | nil =>
    constructor
    · rintro ⟨r, hr, _⟩
      cases hr
    · intro _
      exact ⟨[], rfl, rfl, fun i h1 _ => absurd h1 (Nat.not_lt_zero i)⟩
  | cons r rs ih =>
    constructor
    · rintro ⟨r0, hr0, hwf⟩
      rcases List.mem_cons.mp hr0 with rfl | hmem
      · have hno : ¬∃ t, parseRow r0 = .ok t := by
          rw [← parseRow_ok_iff, hwf]
          simp
        cases hp : parseRow r0 with
        | error msg => exact ⟨msg, by simp [read_cibc_transactions, hp]⟩
        | ok t => exact absurd ⟨t, hp⟩ hno
      · cases hp : parseRow r with
        | error msg => exact ⟨msg, by simp [read_cibc_transactions, hp]⟩
        | ok t =>
          obtain ⟨msg, hmsg⟩ := ih.1 ⟨r0, hmem, hwf⟩
          exact ⟨msg, by simp [read_cibc_transactions, hp, hmsg]⟩
    · intro hall
      have hr := hall r (List.mem_cons_self r rs)
      obtain ⟨t, ht⟩ := (parseRow_ok_iff r).mp hr
      obtain ⟨ts, hts, hlen, hgets⟩ :=
        ih.2 (fun x hx => hall x (List.mem_cons_of_mem r hx))
      refine ⟨t :: ts, ?_, by simp [hlen], ?_⟩
      · simp [read_cibc_transactions, ht, hts]
      · intro i h1 h2
        cases i with
        | zero => simpa using ht
        | succ n =>
          exact hgets n (Nat.lt_of_succ_lt_succ h1) (Nat.lt_of_succ_lt_succ h2)

/-- Witness for C3 on the concrete two-row scenario of the spec. -/
theorem claim_C3_witness :
    (∀ r ∈ sampleRows, rowWellFormed r = true)
    ∧ ∃ ts, read_cibc_transactions sampleRows = .ok ts
        ∧ ts.length = sampleRows.length
        ∧ ∀ (i : Nat) (h1 : i < sampleRows.length) (h2 : i < ts.length),
            parseRow (sampleRows.get ⟨i, h1⟩) = .ok (ts.get ⟨i, h2⟩) :=
  ⟨by decide, (claim_C3 sampleRows).2 (by decide)⟩

/-- A list whose head satisfies the predicate is found at the head. -/
theorem find?_head_pos {α : Type} (p : α → Bool) (l : List α) (a : α)
    (hhead : l.head? = some a) (hp : p a = true) : l.find? p = some a := by
  cases l with
  | nil => cases hhead
  | cons x xs =>
    have hx : x = a := by simpa using hhead
    subst hx
    exact List.find?_cons_of_pos _ hp

/-- Claim C4: the table is exactly the declared 11-name order,
classification returns the first category in declaration order any of
whose keywords occurs case-insensitively in the description, none when
none matches, and any description containing WALMART is classified
Groceries, never Shopping. -/
theorem claim_C4 (e : Bool) (desc : String) :
    ((categoryTable false).map Prod.fst
        = ["Groceries", "Dining", "Transportation", "Shopping",
           "Bills & Utilities", "Entertainment", "Healthcare", "Education",
           "Investments", "Income", "Transfers"])
    ∧ (∀ c, classify e desc = some c ↔
        ∃ kws l1 l2, categoryTable e = l1 ++ (c, kws) :: l2
          ∧ catMatches desc (c, kws) = true
          ∧ ∀ p ∈ l1, catMatches desc p = false)
    ∧ (classify e desc = none ↔ ∀ p ∈ categoryTable e, catMatches desc p = false)
    ∧ (kwIn "WALMART" desc = true → classify e desc = some "Groceries") := by
  refine ⟨by decide, ?_, ?_, ?_⟩
  · intro c
    constructor
    · intro h
      cases hf : (categoryTable e).find? (catMatches desc) with
      | none =>
        unfold classify at h
        rw [hf] at h
        cases h
      | some p =>
        obtain ⟨p1, p2⟩ := p
        unfold classify at h
        rw [hf] at h
        have hpc : p1 = c := by simpa using h
        subst hpc
        obtain ⟨hpb, as, bs, heq, hall⟩ := List.find?_eq_some.mp hf
        refine ⟨p2, as, bs, heq, hpb, ?_⟩
        intro q hq
        have hq2 := hall q hq
        simpa using hq2
    · rintro ⟨kws, l1, l2, heq, hmatch, hprev⟩
      have hf : (categoryTable e).find? (catMatches desc) = some (c, kws) := by
        apply List.find?_eq_some.mpr
        exact ⟨hmatch, l1, l2, heq, fun a ha => by simp [hprev a ha]⟩
      unfold classify
      rw [hf]
      rfl
  · constructor
    · intro h
      cases hf : (categoryTable e).find? (catMatches desc) with
      | some p =>
        unfold classify at h
        rw [hf] at h
        cases h
      | none =>
        intro q hq
        have hq2 := List.find?_eq_none.mp hf q hq
        simpa using hq2
    · intro hall
      unfold classify
      rw [List.find?_eq_none.mpr (fun x hx => by simp [hall x hx])]
      rfl
  · intro hw
    have hhead : (categoryTable e).head? = some ("Groceries",
        ["SUPERMARKET", "T&T", "LUCKY", "MARKET", "COSTCO",
         "WALMART", "HEN LONG", "PRODUCE", "FOOD", "GROCERY"]) := by
      cases e <;> rfl
    have hg : catMatches desc ("Groceries",
        ["SUPERMARKET", "T&T", "LUCKY", "MARKET", "COSTCO",
         "WALMART", "HEN LONG", "PRODUCE", "FOOD", "GROCERY"]) = true := by
      unfold catMatches
      simp only [List.any_eq_true]
      exact ⟨"WALMART", by decide, hw⟩
    unfold classify
    rw [find?_head_pos _ _ _ hhead hg]
    rfl

/-- Witness for C4: a description holding WALMART together with
Shopping-only keywords still classifies as Groceries. -/
theorem claim_C4_witness :
    classify false "WALMART SPORT CHEK STORE" = some "Groceries" :=
  (claim_C4 false "WALMART SPORT CHEK STORE").2.2.2 (by decide)

end Finance
